import Mathlib

/-!
Verification of the DBLP-Crawer BibTeX fetcher pipeline.

The repository consists of two near-identical Python scripts,
`conference/bibtex_fetcher.py` and `journal/bibtex_fetcher.py`.  Each defines
`fetch_bibtex`, `load_existing_data`, `print_statistics` and `process_csv`.
This file embeds those functions shallowly: CSV rows become association lists
of column name to string value, Python `str.strip` becomes an explicit
character-list trimming function, the network and HTML layer behind
`fetch_bibtex` becomes an abstract page model, and the fetch capability used
by `process_csv` becomes a function argument of type `String → Option String`.
-/

/-- ASCII whitespace recognised by Python `str.strip()`. -/
def isSpaceChar (c : Char) : Bool :=
  c == ' ' || c == '\t' || c == '\n' || c == '\r' || c == '\x0b' || c == '\x0c'

/-- Trim leading and trailing whitespace from a character list,
modelling Python `str.strip()`. -/
def trimChars (l : List Char) : List Char :=
  ((l.dropWhile isSpaceChar).reverse.dropWhile isSpaceChar).reverse

/-- Model of Python `str.strip()`. -/
def strip (s : String) : String :=
  String.mk (trimChars s.data)

/-- A CSV row as produced by `csv.DictReader`: an ordered association list of
column name to string value (keys are distinct in rows read from a file). -/
abbrev Row := List (String × String)

/-- Model of Python `row.get(k, "")` on a row dictionary. -/
def rowGet : Row → String → String
  | [], _ => ""
  | p :: rest, k => if p.1 = k then p.2 else rowGet rest k

/-- Model of Python `row[k] = v` on a row dictionary: replace the value at an
existing key in place, otherwise append the binding at the end. -/
def rowSet : Row → String → String → Row
  | [], k, v => [(k, v)]
  | p :: rest, k, v => if p.1 = k then (k, v) :: rest else p :: rowSet rest k v

/-- Lookup in the Existing-Results Map (a Python dict keyed by title). -/
def lookupKey : List (String × Row) → String → Option Row
  | [], _ => none
  | p :: rest, k => if p.1 = k then some p.2 else lookupKey rest k

/-- Model of Python `d[k] = v` on the Existing-Results Map. -/
def insertKey : List (String × Row) → String → Row → List (String × Row)
  | [], k, v => [(k, v)]
  | p :: rest, k, v => if p.1 = k then (k, v) :: rest else p :: insertKey rest k v

/-! ### Model of the network and HTML layer behind `fetch_bibtex`

`requests.get` plus `BeautifulSoup` parsing is abstracted as a function
`net : String → Option Page`: `none` stands for any
`requests.exceptions.RequestException` (connection failure, timeout, or a
non-success status raised by `raise_for_status`); `some page` stands for a
successfully retrieved and parsed document.  In a `Page`, `bibtexSection`
is the result of `soup.find("div", id="bibtex-section")`, and inside a
section, `pre` is the `.text` of the first `<pre>` element found, if any. -/

structure BibtexSection where
  pre : Option String
deriving DecidableEq

structure Page where
  bibtexSection : Option BibtexSection
deriving DecidableEq

namespace Conference

/-- `fetch_bibtex` from `conference/bibtex_fetcher.py` (lines 25-39).
The `Except` layer records an uncaught Python exception: when the
`bibtex-section` div exists but contains no `<pre>` element,
`bibtex_section.find("pre")` is `None` and `.text` raises an
`AttributeError`, which is not a `RequestException` and so escapes the
`try`/`except` block. -/
def fetch_bibtex (net : String → Option Page) (bibtex_url : String) :
    Except String (Option String) :=
  match net bibtex_url with
  | none => Except.ok none
  | some page =>
    match page.bibtexSection with
    | none => Except.ok none
    | some bibtex_section =>
      match bibtex_section.pre with
      | none => Except.error "AttributeError"
      | some text => Except.ok (some (strip text))

/-- Loop body of `load_existing_data` (lines 50-53): insert the row under its
stripped key unless the key is blank. -/
def loadStep (key_field : String) (existing_data : List (String × Row)) (row : Row) :
    List (String × Row) :=
  if strip (rowGet row key_field) ≠ "" then
    insertKey existing_data (strip (rowGet row key_field)) row
  else existing_data

/-- `load_existing_data` from `conference/bibtex_fetcher.py` (lines 41-54).
The output file is `none` when the path does not exist. -/
def load_existing_data (outputfile : Option (List Row)) (key_field : String) :
    List (String × Row) :=
  match outputfile with
  | none => []
  | some rows => rows.foldl (loadStep key_field) []

/-- `print_statistics` from `conference/bibtex_fetcher.py` (lines 56-78).
Returns (total entries, success entries, whether the missing-input warning
was emitted); either file is `none` when its path does not exist. -/
def print_statistics (inputfile outputfile : Option (List Row)) :
    Nat × Nat × Bool :=
  let totalWarn : Nat × Bool :=
    match inputfile with
    | some rows => (rows.foldl (fun n _ => n + 1) 0, false)
    | none => (0, true)
  let success_entries : Nat :=
    match outputfile with
    | some rows =>
      rows.foldl (fun success_entries row =>
        if strip (rowGet row "bibtex_data") != ""
            && strip (rowGet row "bibtex_data") != "Not Available"
            && strip (rowGet row "bibtex_data") != "No URL" then
          success_entries + 1
        else success_entries) 0
    | none => 0
  (totalWarn.1, success_entries, totalWarn.2)

/-- The cached-entry validity test from `process_csv` lines 104-105:
the existing `bibtex_data`, stripped, is non-blank and not a sentinel. -/
def reusableBibtex (cachedRow : Row) : Bool :=
  strip (rowGet cachedRow "bibtex_data") != ""
    && strip (rowGet cachedRow "bibtex_data") != "Not Available"
    && strip (rowGet cachedRow "bibtex_data") != "No URL"

/-- The fetch-or-"No URL" part of the `process_csv` loop body (lines 111-116),
with the fetch capability abstracted as `fetch : String → Option String`
(`fetch_bibtex` returning `None` becomes `none`).  Python's
`bibtex_data if bibtex_data else "Not Available"` maps `none` and `some ""`
to `"Not Available"`. -/
def fetchStep (fetch : String → Option String) (row : Row) (bibtex_url : String) :
    Row :=
  if bibtex_url ≠ "" then
    match fetch bibtex_url with
    | some bibtex_data =>
      rowSet row "bibtex_data" (if bibtex_data ≠ "" then bibtex_data else "Not Available")
    | none => rowSet row "bibtex_data" "Not Available"
  else
    rowSet row "bibtex_data" "No URL"

/-- One iteration of the `process_csv` loop (lines 98-119): consult the
Existing-Results Map under the stripped title, reuse a valid cached
`bibtex_data`, otherwise fetch or mark "No URL". -/
def processRow (fetch : String → Option String) (processed_data : List (String × Row))
    (row : Row) : Row :=
  match lookupKey processed_data (strip (rowGet row "title")) with
  | some cachedRow =>
    if reusableBibtex cachedRow then
      rowSet row "bibtex_data" (strip (rowGet cachedRow "bibtex_data"))
    else
      fetchStep fetch row (strip (rowGet row "bibtex_url"))
  | none => fetchStep fetch row (strip (rowGet row "bibtex_url"))

/-- Number of fetch-capability invocations made while processing one row:
`process_csv` calls `fetch_bibtex` exactly once, in the branch where no valid
cached entry exists and the stripped `bibtex_url` is non-blank. -/
def rowFetchCalls (_fetch : String → Option String)
    (processed_data : List (String × Row)) (row : Row) : Nat :=
  match lookupKey processed_data (strip (rowGet row "title")) with
  | some cachedRow =>
    if reusableBibtex cachedRow then 0
    else if strip (rowGet row "bibtex_url") ≠ "" then 1 else 0
  | none => if strip (rowGet row "bibtex_url") ≠ "" then 1 else 0

/-- `process_csv` from `conference/bibtex_fetcher.py` (lines 80-119) as a
function of the input rows, the prior output contents (`none` when the output
file does not exist) and the fetch capability; the result is the sequence of
rows written to the output file. -/
def process_csv (fetch : String → Option String) (prior : Option (List Row))
    (input_rows : List Row) : List Row :=
  input_rows.map (processRow fetch (load_existing_data prior "title"))

/-- Total number of fetch-capability invocations of a `process_csv` run. -/
def process_csv_fetchCalls (fetch : String → Option String)
    (prior : Option (List Row)) (input_rows : List Row) : Nat :=
  (input_rows.map (rowFetchCalls fetch (load_existing_data prior "title"))).sum

/-- Output fieldnames computation of `process_csv` (lines 90-92). -/
def outputFieldnames (fieldnames : List String) : List String :=
  if fieldnames.contains "bibtex_data" then fieldnames else fieldnames ++ ["bibtex_data"]

/-- `fetchStep` with the concrete `fetch_bibtex` network stack plugged in,
threading the uncaught `AttributeError`. -/
def fetchStepNet (net : String → Option Page) (row : Row) (bibtex_url : String) :
    Except String Row :=
  if bibtex_url ≠ "" then
    match fetch_bibtex net bibtex_url with
    | Except.error e => Except.error e
    | Except.ok bibtex_data =>
      Except.ok (rowSet row "bibtex_data"
        (match bibtex_data with
         | some b => if b ≠ "" then b else "Not Available"
         | none => "Not Available"))
  else
    Except.ok (rowSet row "bibtex_data" "No URL")

/-- One `process_csv` loop iteration with the concrete network stack. -/
def processRowNet (net : String → Option Page) (processed_data : List (String × Row))
    (row : Row) : Except String Row :=
  match lookupKey processed_data (strip (rowGet row "title")) with
  | some cachedRow =>
    if reusableBibtex cachedRow then
      Except.ok (rowSet row "bibtex_data" (strip (rowGet cachedRow "bibtex_data")))
    else
      fetchStepNet net row (strip (rowGet row "bibtex_url"))
  | none => fetchStepNet net row (strip (rowGet row "bibtex_url"))

/-- The `process_csv` loop with the concrete network stack: an uncaught
exception in one iteration aborts the whole loop. -/
def processRowsNet (net : String → Option Page) (processed_data : List (String × Row)) :
    List Row → Except String (List Row)
  | [] => Except.ok []
  | row :: rest => do
    let out ← processRowNet net processed_data row
    let outs ← processRowsNet net processed_data rest
    pure (out :: outs)

/-- `process_csv` with the concrete network stack. -/
def process_csv_net (net : String → Option Page) (prior : Option (List Row))
    (input_rows : List Row) : Except String (List Row) :=
  processRowsNet net (load_existing_data prior "title") input_rows

/-- The output file during a run: the header written by `writeheader` and the
rows written (and flushed) so far. -/
structure OutFile where
  header : List String
  written : List Row
deriving DecidableEq

/-- State of an in-progress `process_csv` run: the output file contents and
the input rows not yet processed. -/
structure RunState where
  outfile : OutFile
  remaining : List Row
deriving DecidableEq

/-- State right after `writeheader` (line 96), before the loop starts. -/
def initState (fieldnames : List String) (input_rows : List Row) : RunState :=
  { outfile := { header := outputFieldnames fieldnames, written := [] },
    remaining := input_rows }

/-- One loop iteration of `process_csv` as a state step: process the next
input row, write it to the output file and flush (lines 98-119). -/
def stepRun (fetch : String → Option String) (processed_data : List (String × Row)) :
    RunState → RunState
  | { outfile := f, remaining := [] } => { outfile := f, remaining := [] }
  | { outfile := f, remaining := row :: rest } =>
    { outfile := { header := f.header,
                   written := f.written ++ [processRow fetch processed_data row] },
      remaining := rest }

end Conference

namespace Journal

/-- `fetch_bibtex` from `journal/bibtex_fetcher.py` (lines 25-38); same
structure as the conference variant, including the uncaught `AttributeError`
when the section exists without a `<pre>` element. -/
def fetch_bibtex (net : String → Option Page) (bibtex_url : String) :
    Except String (Option String) :=
  match net bibtex_url with
  | none => Except.ok none
  | some page =>
    match page.bibtexSection with
    | none => Except.ok none
    | some bibtex_section =>
      match bibtex_section.pre with
      | none => Except.error "AttributeError"
      | some text => Except.ok (some (strip text))

/-- `load_existing_data` from `journal/bibtex_fetcher.py` (lines 40-53). -/
def load_existing_data (outputfile : Option (List Row)) (key_field : String) :
    List (String × Row) :=
  match outputfile with
  | none => []
  | some rows =>
    rows.foldl (fun existing row =>
      if strip (rowGet row key_field) ≠ "" then
        insertKey existing (strip (rowGet row key_field)) row
      else existing) []

/-- `print_statistics` from `journal/bibtex_fetcher.py` (lines 55-73);
returns (total, success, missing-input warning emitted). -/
def print_statistics (inputfile outputfile : Option (List Row)) :
    Nat × Nat × Bool :=
  let totalWarn : Nat × Bool :=
    match inputfile with
    | some rows => (rows.foldl (fun n _ => n + 1) 0, false)
    | none => (0, true)
  let success : Nat :=
    match outputfile with
    | some rows =>
      rows.foldl (fun success row =>
        if strip (rowGet row "bibtex_data") != ""
            && strip (rowGet row "bibtex_data") != "Not Available"
            && strip (rowGet row "bibtex_data") != "No URL" then
          success + 1
        else success) 0
    | none => 0
  (totalWarn.1, success, totalWarn.2)

/-- One iteration of the `process_csv` loop from `journal/bibtex_fetcher.py`
(lines 93-112), with the cached-entry validity test written inline as in the
source. -/
def processRow (fetch : String → Option String) (existing_data : List (String × Row))
    (row : Row) : Row :=
  match lookupKey existing_data (strip (rowGet row "title")) with
  | some cachedRow =>
    if strip (rowGet cachedRow "bibtex_data") != ""
        && strip (rowGet cachedRow "bibtex_data") != "Not Available"
        && strip (rowGet cachedRow "bibtex_data") != "No URL" then
      rowSet row "bibtex_data" (strip (rowGet cachedRow "bibtex_data"))
    else if strip (rowGet row "bibtex_url") ≠ "" then
      match fetch (strip (rowGet row "bibtex_url")) with
      | some bibtex =>
        rowSet row "bibtex_data" (if bibtex ≠ "" then bibtex else "Not Available")
      | none => rowSet row "bibtex_data" "Not Available"
    else
      rowSet row "bibtex_data" "No URL"
  | none =>
    if strip (rowGet row "bibtex_url") ≠ "" then
      match fetch (strip (rowGet row "bibtex_url")) with
      | some bibtex =>
        rowSet row "bibtex_data" (if bibtex ≠ "" then bibtex else "Not Available")
      | none => rowSet row "bibtex_data" "Not Available"
    else
      rowSet row "bibtex_data" "No URL"

/-- `process_csv` from `journal/bibtex_fetcher.py` (lines 75-112) as a
function of the input rows, prior output contents, and fetch capability. -/
def process_csv (fetch : String → Option String) (prior : Option (List Row))
    (input_rows : List Row) : List Row :=
  input_rows.map (processRow fetch (load_existing_data prior "title"))

end Journal

/-- The success-count predicate of `print_statistics` (lines 73-75): the
stripped `bibtex_data` is non-blank and not one of the two sentinels. -/
def realData (row : Row) : Bool :=
  strip (rowGet row "bibtex_data") != ""
    && strip (rowGet row "bibtex_data") != "Not Available"
    && strip (rowGet row "bibtex_data") != "No URL"

/-- A deterministic, always-succeeding fetch capability used to analyse the
idempotence property: every URL resolves, but two distinct URLs can resolve
to distinct citation texts. -/
def c2exFetch : String → Option String :=
  fun u => if u = "u1" then some "@a" else some "@b"

/-- An input dataset with two records sharing the trimmed title "T" but
carrying different URLs. -/
def c2exRows : List Row :=
  [[("title", "T"), ("bibtex_url", "u1")], [("title", "T"), ("bibtex_url", "u2")]]

/-! ### Basic lemmas about the Python-primitive models -/

theorem dropWhile_self_idem (p : Char → Bool) :
    ∀ l : List Char, (l.dropWhile p).dropWhile p = l.dropWhile p := by
  intro l
  induction l with
  | nil => rfl
  | cons a t ih =>
    by_cases h : p a
    · simp [List.dropWhile, h, ih]
    · simp [List.dropWhile, h]

theorem head_of_dropWhile (p : Char → Bool) :
    ∀ (l : List Char) (a : Char) (t : List Char),
      l.dropWhile p = a :: t → p a = false := by
  intro l
  induction l with
  | nil => intro a t h; simp [List.dropWhile] at h
  | cons b r ih =>
    intro a t h
    by_cases hb : p b
    · exact ih a t (by simpa [List.dropWhile, hb] using h)
    · simp [List.dropWhile, hb] at h
      simp [← h.1, Bool.eq_false_iff, hb]

theorem dropWhile_drops (p : Char → Bool) :
    ∀ l : List Char, ∃ t, t ++ l.dropWhile p = l := by
  intro l
  induction l with
  | nil => exact ⟨[], rfl⟩
  | cons a r ih =>
    by_cases h : p a
    · obtain ⟨t, ht⟩ := ih
      exact ⟨a :: t, by simp [List.dropWhile, h, ht]⟩
    · exact ⟨[], by simp [List.dropWhile, h]⟩

theorem trimChars_idem (l : List Char) : trimChars (trimChars l) = trimChars l := by
  unfold trimChars
  set p := isSpaceChar with hp
  set d1 := l.dropWhile p with hd1
  set d2 := d1.reverse.dropWhile p with hd2
  have step1 : d2.reverse.dropWhile p = d2.reverse := by
    cases hr : d2.reverse with
    | nil => rfl
    | cons a t =>
      obtain ⟨s, hs⟩ := dropWhile_drops p d1.reverse
      have hd : d1 = d2.reverse ++ s.reverse := by
        have := congrArg List.reverse hs
        simpa [hd2] using this.symm
      have hhead : d1.dropWhile p = a :: (t ++ s.reverse) := by
        have : d1 = a :: (t ++ s.reverse) := by simp [hd, hr]
        calc d1.dropWhile p = d1 := by rw [hd1]; exact dropWhile_self_idem p l
        _ = a :: (t ++ s.reverse) := this
      have hpa : p a = false := head_of_dropWhile p d1 a _ hhead
      simp [List.dropWhile, hpa]
  have hidem : List.dropWhile p d2 = d2 := by
    rw [hd2]; exact dropWhile_self_idem p d1.reverse
  rw [step1, List.reverse_reverse, hidem]

theorem strip_idem (s : String) : strip (strip s) = strip s :=
  congrArg String.mk (trimChars_idem s.data)

theorem rowGet_rowSet_self (row : Row) (k v : String) :
    rowGet (rowSet row k v) k = v := by
  induction row with
  | nil => simp [rowSet, rowGet]
  | cons p rest ih =>
    by_cases h : p.1 = k
    · simp [rowSet, h, rowGet]
    · simp [rowSet, h, rowGet, ih]

theorem rowGet_rowSet_ne (row : Row) (k k' v : String) (h : k' ≠ k) :
    rowGet (rowSet row k v) k' = rowGet row k' := by
  induction row with
  | nil =>
    have hkk : ¬ (k = k') := fun hh => h hh.symm
    simp [rowSet, rowGet, hkk]
  | cons p rest ih =>
    by_cases hp : p.1 = k
    · have hkk : ¬ (k = k') := fun hh => h hh.symm
      have hpk : ¬ (p.1 = k') := by rw [hp]; exact hkk
      simp [rowSet, hp, rowGet, hkk, hpk]
    · by_cases hk' : p.1 = k'
      · simp [rowSet, hp, rowGet, hk', h]
      · simp [rowSet, hp, rowGet, hk', ih]

theorem lookupKey_insertKey_self (m : List (String × Row)) (k : String) (v : Row) :
    lookupKey (insertKey m k v) k = some v := by
  induction m with
  | nil => simp [insertKey, lookupKey]
  | cons p rest ih =>
    by_cases h : p.1 = k
    · simp [insertKey, h, lookupKey]
    · simp [insertKey, h, lookupKey, ih]

theorem lookupKey_insertKey_ne (m : List (String × Row)) (k k' : String) (v : Row)
    (h : k' ≠ k) : lookupKey (insertKey m k v) k' = lookupKey m k' := by
  induction m with
  | nil =>
    have hkk : ¬ (k = k') := fun hh => h hh.symm
    simp [insertKey, lookupKey, hkk]
  | cons p rest ih =>
    by_cases hp : p.1 = k
    · have hkk : ¬ (k = k') := fun hh => h hh.symm
      have hpk : ¬ (p.1 = k') := by rw [hp]; exact hkk
      simp [insertKey, hp, lookupKey, hkk, hpk]
    · by_cases hk' : p.1 = k'
      · simp [insertKey, hp, lookupKey, hk', h]
      · simp [insertKey, hp, lookupKey, hk', ih]

/-! ### Helper lemmas for the claim proofs -/

theorem cons_getLast?_eq {α : Type} (a : α) (l : List α) :
    (a :: l).getLast? = (l.getLast?).or (some a) := by
  induction l generalizing a with
  | nil => rfl
  | cons b t ih =>
    rw [List.getLast?_cons_cons, ih b]
    cases h : t.getLast? with
    | none => simp [ih, h, Option.or]
    | some x => simp [ih, h, Option.or]

theorem loadStep_of_key (kf : String) (e : List (String × Row)) (row : Row)
    (h : strip (rowGet row kf) ≠ "") :
    Conference.loadStep kf e row = insertKey e (strip (rowGet row kf)) row := by
  simp [Conference.loadStep, h]

theorem loadStep_of_blank (kf : String) (e : List (String × Row)) (row : Row)
    (h : strip (rowGet row kf) = "") :
    Conference.loadStep kf e row = e := by
  simp [Conference.loadStep, h]

theorem load_foldl_lookup (kf k : String) (hk : k ≠ "") :
    ∀ (rows : List Row) (m : List (String × Row)),
      lookupKey (rows.foldl (Conference.loadStep kf) m) k
      = ((rows.filter (fun r => strip (rowGet r kf) == k)).getLast?).or (lookupKey m k) := by
  intro rows
  induction rows with
  | nil => intro m; simp
  | cons r rest ih =>
    intro m
    rw [List.foldl_cons, List.filter_cons]
    by_cases hkey : strip (rowGet r kf) = k
    · have hne : strip (rowGet r kf) ≠ "" := by rw [hkey]; exact hk
      rw [loadStep_of_key kf m r hne, hkey, ih (insertKey m k r), lookupKey_insertKey_self,
        if_pos (by simp [hkey]), cons_getLast?_eq]
      cases h : (rest.filter (fun x => strip (rowGet x kf) == k)).getLast? with
      | none => simp [Option.or]
      | some x => simp [Option.or]
    · rw [if_neg (by simp [hkey])]
      by_cases hbl : strip (rowGet r kf) = ""
      · rw [loadStep_of_blank kf m r hbl, ih m]
      · rw [loadStep_of_key kf m r hbl, ih,
          lookupKey_insertKey_ne m _ k r (fun hh => hkey hh.symm)]

theorem load_foldl_lookup_blank (kf : String) :
    ∀ (rows : List Row) (m : List (String × Row)),
      lookupKey (rows.foldl (Conference.loadStep kf) m) "" = lookupKey m "" := by
  intro rows
  induction rows with
  | nil => intro m; simp
  | cons r rest ih =>
    intro m
    rw [List.foldl_cons]
    by_cases hbl : strip (rowGet r kf) = ""
    · rw [loadStep_of_blank kf m r hbl, ih m]
    · rw [loadStep_of_key kf m r hbl, ih,
        lookupKey_insertKey_ne m _ "" r (fun hh => hbl hh.symm)]

theorem filter_nodup_single (f : Row → String) :
    ∀ (l : List Row) (r : Row), (l.map f).Nodup → r ∈ l →
      l.filter (fun x => f x == f r) = [r] := by
  intro l
  induction l with
  | nil => intro r _ hmem; cases hmem
  | cons a t ih =>
    intro r hnd hmem
    rw [List.map_cons, List.nodup_cons] at hnd
    rcases List.mem_cons.mp hmem with hr | hr
    · subst hr
      have hfil : t.filter (fun x => f x == f r) = [] := by
        rw [List.filter_eq_nil_iff]
        intro x hx
        simp only [beq_iff_eq]
        intro hfx
        exact hnd.1 (hfx ▸ List.mem_map_of_mem f hx)
      rw [List.filter_cons, if_pos (by simp), hfil]
    · have hfa : ¬ ((f a == f r) = true) := by
        simp only [beq_iff_eq]
        intro hfx
        exact hnd.1 (hfx ▸ List.mem_map_of_mem f hr)
      rw [List.filter_cons, if_neg hfa, ih r hnd.2 hr]

theorem filter_map_pred (g : Row → Row) (p q : Row → Bool)
    (hpq : ∀ x, q x = p (g x)) :
    ∀ l : List Row, (l.map g).filter p = (l.filter q).map g := by
  intro l
  induction l with
  | nil => rfl
  | cons a t ih =>
    rw [List.map_cons, List.filter_cons, List.filter_cons, hpq a]
    by_cases h : p (g a) = true
    · rw [if_pos h, if_pos h, List.map_cons, ih]
    · rw [if_neg h, if_neg h, ih]

theorem map_congr_mem {α β : Type} (f g : α → β) :
    ∀ l : List α, (∀ a ∈ l, f a = g a) → l.map f = l.map g := by
  intro l
  induction l with
  | nil => intro _; rfl
  | cons a t ih =>
    intro h
    rw [List.map_cons, List.map_cons, h a (List.mem_cons_self a t),
      ih (fun x hx => h x (List.mem_cons_of_mem a hx))]

theorem sum_zero_of_all_zero :
    ∀ l : List Nat, (∀ x ∈ l, x = 0) → l.sum = 0 := by
  intro l
  induction l with
  | nil => intro _; rfl
  | cons a t ih =>
    intro h
    rw [List.sum_cons, h a (List.mem_cons_self a t),
      ih (fun x hx => h x (List.mem_cons_of_mem a hx))]

theorem foldl_add_one_length :
    ∀ (l : List Row) (n : Nat), l.foldl (fun n _ => n + 1) n = n + l.length := by
  intro l
  induction l with
  | nil => intro n; simp
  | cons a t ih => intro n; rw [List.foldl_cons, ih, List.length_cons]; omega

theorem foldl_if_countP (p : Row → Bool) :
    ∀ (l : List Row) (n : Nat),
      l.foldl (fun n r => if p r then n + 1 else n) n = n + l.countP p := by
  intro l
  induction l with
  | nil => intro n; simp
  | cons a t ih =>
    intro n
    rw [List.foldl_cons]
    by_cases h : p a = true
    · rw [if_pos h, ih, List.countP_cons_of_pos _ _ h]; omega
    · rw [if_neg h, ih, List.countP_cons_of_neg _ _ h]

/-! ### Reduction lemmas for the row processor -/

theorem fetchStep_blank (fetch : String → Option String) (row : Row) (u : String)
    (hu : u = "") :
    Conference.fetchStep fetch row u = rowSet row "bibtex_data" "No URL" := by
  unfold Conference.fetchStep
  rw [hu]
  simp

theorem fetchStep_fail (fetch : String → Option String) (row : Row) (u : String)
    (hu : u ≠ "") (hf : fetch u = none) :
    Conference.fetchStep fetch row u = rowSet row "bibtex_data" "Not Available" := by
  unfold Conference.fetchStep
  rw [if_pos hu, hf]

theorem fetchStep_some (fetch : String → Option String) (row : Row) (u s : String)
    (hu : u ≠ "") (hf : fetch u = some s) (hs : s ≠ "") :
    Conference.fetchStep fetch row u = rowSet row "bibtex_data" s := by
  unfold Conference.fetchStep
  rw [if_pos hu, hf]
  show rowSet row "bibtex_data" (if s ≠ "" then s else "Not Available") = _
  rw [if_pos hs]

theorem fetchStep_empty (fetch : String → Option String) (row : Row) (u : String)
    (hu : u ≠ "") (hf : fetch u = some "") :
    Conference.fetchStep fetch row u = rowSet row "bibtex_data" "Not Available" := by
  unfold Conference.fetchStep
  rw [if_pos hu, hf]
  simp

theorem processRow_cached (fetch : String → Option String) (m : List (String × Row))
    (row c : Row) (hl : lookupKey m (strip (rowGet row "title")) = some c)
    (hre : Conference.reusableBibtex c = true) :
    Conference.processRow fetch m row
      = rowSet row "bibtex_data" (strip (rowGet c "bibtex_data")) := by
  unfold Conference.processRow
  rw [hl]
  simp [hre]

theorem processRow_cached_invalid (fetch : String → Option String)
    (m : List (String × Row)) (row c : Row)
    (hl : lookupKey m (strip (rowGet row "title")) = some c)
    (hre : Conference.reusableBibtex c = false) :
    Conference.processRow fetch m row
      = Conference.fetchStep fetch row (strip (rowGet row "bibtex_url")) := by
  unfold Conference.processRow
  rw [hl]
  simp [hre]

theorem processRow_nocache (fetch : String → Option String) (m : List (String × Row))
    (row : Row) (hl : lookupKey m (strip (rowGet row "title")) = none) :
    Conference.processRow fetch m row
      = Conference.fetchStep fetch row (strip (rowGet row "bibtex_url")) := by
  unfold Conference.processRow
  rw [hl]

theorem rowFetchCalls_cached (fetch : String → Option String) (m : List (String × Row))
    (row c : Row) (hl : lookupKey m (strip (rowGet row "title")) = some c)
    (hre : Conference.reusableBibtex c = true) :
    Conference.rowFetchCalls fetch m row = 0 := by
  unfold Conference.rowFetchCalls
  rw [hl]
  simp [hre]

theorem rowFetchCalls_cached_invalid (fetch : String → Option String)
    (m : List (String × Row)) (row c : Row)
    (hl : lookupKey m (strip (rowGet row "title")) = some c)
    (hre : Conference.reusableBibtex c = false) :
    Conference.rowFetchCalls fetch m row
      = if strip (rowGet row "bibtex_url") ≠ "" then 1 else 0 := by
  unfold Conference.rowFetchCalls
  rw [hl]
  simp [hre]

theorem rowFetchCalls_nocache (fetch : String → Option String) (m : List (String × Row))
    (row : Row) (hl : lookupKey m (strip (rowGet row "title")) = none) :
    Conference.rowFetchCalls fetch m row
      = if strip (rowGet row "bibtex_url") ≠ "" then 1 else 0 := by
  unfold Conference.rowFetchCalls
  rw [hl]

theorem reusableBibtex_iff (c : Row) :
    Conference.reusableBibtex c = true
      ↔ strip (rowGet c "bibtex_data") ≠ ""
        ∧ strip (rowGet c "bibtex_data") ≠ "Not Available"
        ∧ strip (rowGet c "bibtex_data") ≠ "No URL" := by
  unfold Conference.reusableBibtex
  simp [Bool.and_eq_true, bne_iff_ne, and_assoc]

theorem processRow_title (fetch : String → Option String) (m : List (String × Row))
    (row : Row) :
    rowGet (Conference.processRow fetch m row) "title" = rowGet row "title" := by
  have hset : ∀ v, rowGet (rowSet row "bibtex_data" v) "title" = rowGet row "title" :=
    fun v => rowGet_rowSet_ne row "bibtex_data" "title" v (by decide)
  have hfs : ∀ u, rowGet (Conference.fetchStep fetch row u) "title" = rowGet row "title" := by
    intro u
    unfold Conference.fetchStep
    by_cases hu : u ≠ ""
    · rw [if_pos hu]
      cases hf : fetch u with
      | none => exact hset _
      | some b => exact hset _
    · rw [if_neg hu]
      exact hset _
  unfold Conference.processRow
  cases hl : lookupKey m (strip (rowGet row "title")) with
  | none => exact hfs _
  | some c =>
    by_cases hre : Conference.reusableBibtex c = true
    · simp only [hre, if_true]
      exact hset _
    · simp only [Bool.not_eq_true] at hre
      simp only [hre, Bool.false_eq_true, if_false]
      exact hfs _

theorem sum_map_fetchCalls (fetch : String → Option String) :
    ∀ rows : List Row,
      (rows.map (Conference.rowFetchCalls fetch [])).sum
      = rows.countP (fun r => strip (rowGet r "bibtex_url") != "") := by
  intro rows
  induction rows with
  | nil => rfl
  | cons r t ih =>
    rw [List.map_cons, List.sum_cons, ih, List.countP_cons,
      rowFetchCalls_nocache fetch [] r rfl]
    by_cases h : strip (rowGet r "bibtex_url") = ""
    · rw [if_neg (by simp [h]), if_neg (by simp [h])]
      omega
    · rw [if_pos h, if_pos (by simp [h])]
      omega

theorem stepRun_iter (fetch : String → Option String) (m : List (String × Row)) :
    ∀ (k : Nat) (hd : List String) (w : List Row) (rows : List Row),
      (Conference.stepRun fetch m)^[k] (Conference.RunState.mk ⟨hd, w⟩ rows)
      = Conference.RunState.mk
          ⟨hd, w ++ (rows.take k).map (Conference.processRow fetch m)⟩
          (rows.drop k) := by
  intro k
  induction k with
  | zero => intro hd w rows; simp
  | succ k ih =>
    intro hd w rows
    rw [Function.iterate_succ_apply]
    cases rows with
    | nil =>
      rw [show Conference.stepRun fetch m (Conference.RunState.mk ⟨hd, w⟩ [])
          = Conference.RunState.mk ⟨hd, w⟩ [] from rfl]
      simpa using ih hd w []
    | cons r rest =>
      rw [show Conference.stepRun fetch m (Conference.RunState.mk ⟨hd, w⟩ (r :: rest))
          = Conference.RunState.mk
              ⟨hd, w ++ [Conference.processRow fetch m r]⟩ rest from rfl]
      rw [ih hd (w ++ [Conference.processRow fetch m r]) rest]
      simp [List.take_succ_cons, List.drop_succ_cons]

/-! ### Claim theorems -/

/-- C6: the Existing-Results Loader returns an empty mapping when the path
does not exist; for an existing file it skips every record whose key field is
absent or blank after trimming (so a blank key is never present in the map),
and when two records share the same trimmed key the later record in iteration
order is the one present in the returned mapping (the lookup of a non-blank
key is the last matching record). -/
theorem c6_loader_contract (rows : List Row) (kf : String) :
    Conference.load_existing_data none kf = []
    ∧ lookupKey (Conference.load_existing_data (some rows) kf) "" = none
    ∧ ∀ k, k ≠ "" →
        lookupKey (Conference.load_existing_data (some rows) kf) k
        = (rows.filter (fun r => strip (rowGet r kf) == k)).getLast? := by
  refine ⟨rfl, ?_, ?_⟩
  · show lookupKey (rows.foldl (Conference.loadStep kf) []) "" = none
    rw [load_foldl_lookup_blank kf rows []]
    rfl
  · intro k hk
    show lookupKey (rows.foldl (Conference.loadStep kf) []) k = _
    rw [load_foldl_lookup kf k hk rows []]
    cases h : (rows.filter (fun r => strip (rowGet r kf) == k)).getLast? with
    | none => simp [Option.or, lookupKey]
    | some x => simp [Option.or]

/-- Witness for C6 at a concrete prior-output file: a duplicate-titled record
is resolved to the later one, and the blank-titled record is skipped. -/
theorem c6_loader_contract_witness :
    lookupKey (Conference.load_existing_data
        (some [[("title", "B"), ("n", "1")], [("title", "  ")], [("title", "B"), ("n", "2")]])
        "title") "B"
      = some [("title", "B"), ("n", "2")] := by
  rw [(c6_loader_contract
      [[("title", "B"), ("n", "1")], [("title", "  ")], [("title", "B"), ("n", "2")]]
      "title").2.2 "B" (by decide)]
  decide

/-- C7: the Statistics Reporter computes exactly two counts: the number of
records in the input file, and the number of output records whose stripped
`bibtex_data` is non-blank and not a sentinel; when the input file does not
exist it reports a total of zero together with the warning flag, and a
missing output file yields a success count of zero.  The embedding is a pure
function, matching the read-only contract. -/
theorem c7_statistics_contract (inp out : List Row) :
    Conference.print_statistics (some inp) (some out)
      = (inp.length, out.countP realData, false)
    ∧ Conference.print_statistics none (some out)
      = (0, out.countP realData, true)
    ∧ Conference.print_statistics (some inp) none
      = (inp.length, 0, false) := by
  refine ⟨?_, ?_, ?_⟩
  · show (inp.foldl (fun n _ => n + 1) 0,
        out.foldl (fun s row => if realData row then s + 1 else s) 0, false) = _
    rw [foldl_add_one_length, foldl_if_countP realData, Nat.zero_add, Nat.zero_add]
  · show ((0 : Nat),
        out.foldl (fun s row => if realData row then s + 1 else s) 0, true) = _
    rw [foldl_if_countP realData, Nat.zero_add]
  · show (inp.foldl (fun n _ => n + 1) 0, (0 : Nat), false) = _
    rw [foldl_add_one_length, Nat.zero_add]

/-- C8: the conference and journal variants compute identical results:
`load_existing_data`, `fetch_bibtex`, `process_csv` (as a function of input
rows, prior-output contents and fetch capability) and `print_statistics` are
extensionally equal across the two files. -/
theorem c8_variants_agree :
    (∀ (outputfile : Option (List Row)) (kf : String),
        Conference.load_existing_data outputfile kf
        = Journal.load_existing_data outputfile kf)
    ∧ (∀ (net : String → Option Page) (url : String),
        Conference.fetch_bibtex net url = Journal.fetch_bibtex net url)
    ∧ (∀ (fetch : String → Option String) (prior : Option (List Row)) (rows : List Row),
        Conference.process_csv fetch prior rows = Journal.process_csv fetch prior rows)
    ∧ (∀ inputfile outputfile : Option (List Row),
        Conference.print_statistics inputfile outputfile
        = Journal.print_statistics inputfile outputfile) :=
  ⟨fun _ _ => rfl, fun _ _ => rfl, fun _ _ _ => rfl, fun _ _ => rfl⟩

/-- C3: the per-row failure containment is violated by the code.  When every
fetched page contains a `bibtex-section` div with no `<pre>` element inside,
the `AttributeError` raised by `.text` on `None` escapes `fetch_bibtex` and
aborts the whole `process_csv` run (first conjunct), whereas a page with no
`bibtex-section` marker at all is handled and downgraded to "Not Available"
(second conjunct). -/
theorem c3_pre_missing_aborts :
    Conference.process_csv_net (fun _ => some (Page.mk (some (BibtexSection.mk none))))
        none
        [[("title", "P1"), ("bibtex_url", "http://x/1")],
         [("title", "P2"), ("bibtex_url", "http://x/2")]]
      = Except.error "AttributeError"
    ∧ Conference.process_csv_net (fun _ => some (Page.mk none)) none
        [[("title", "P1"), ("bibtex_url", "http://x/1")]]
      = Except.ok [[("title", "P1"), ("bibtex_url", "http://x/1"),
          ("bibtex_data", "Not Available")]] :=
  ⟨rfl, rfl⟩

/-- C9: after any number `k` of loop iterations, the output file consists of
exactly the header produced from the input fieldnames followed by one
complete output record for each of the first `k` input records, in input
order, with the remaining input being the rest; after the final iteration the
written rows are exactly the `process_csv` result. -/
theorem c9_partial_output_valid (fetch : String → Option String)
    (prior : Option (List Row)) (fieldnames : List String) (rows : List Row) (k : Nat) :
    ((Conference.stepRun fetch (Conference.load_existing_data prior "title"))^[k]
        (Conference.initState fieldnames rows)).outfile.header
      = Conference.outputFieldnames fieldnames
    ∧ ((Conference.stepRun fetch (Conference.load_existing_data prior "title"))^[k]
        (Conference.initState fieldnames rows)).outfile.written
      = (rows.take k).map
          (Conference.processRow fetch (Conference.load_existing_data prior "title"))
    ∧ ((Conference.stepRun fetch (Conference.load_existing_data prior "title"))^[k]
        (Conference.initState fieldnames rows)).remaining
      = rows.drop k
    ∧ ((Conference.stepRun fetch
          (Conference.load_existing_data prior "title"))^[rows.length]
        (Conference.initState fieldnames rows)).outfile.written
      = Conference.process_csv fetch prior rows := by
  have hinit : Conference.initState fieldnames rows
      = Conference.RunState.mk ⟨Conference.outputFieldnames fieldnames, []⟩ rows := rfl
  have h := stepRun_iter fetch (Conference.load_existing_data prior "title")
  refine ⟨?_, ?_, ?_, ?_⟩
  · rw [hinit, h k (Conference.outputFieldnames fieldnames) [] rows]
  · rw [hinit, h k (Conference.outputFieldnames fieldnames) [] rows]
    simp
  · rw [hinit, h k (Conference.outputFieldnames fieldnames) [] rows]
  · rw [hinit, h rows.length (Conference.outputFieldnames fieldnames) [] rows]
    show [] ++ (rows.take rows.length).map _ = _
    rw [List.take_length, List.nil_append]
    rfl

/-- C10: with an empty prior output the Existing-Results Map is empty and is
never updated during the run, so the fetch capability is invoked exactly once
for every input record with a non-blank stripped `bibtex_url` — in particular
once per record even when several records share the same trimmed title. -/
theorem c10_no_intra_run_dedup (fetch : String → Option String) (rows : List Row) :
    Conference.process_csv_fetchCalls fetch none rows
      = rows.countP (fun r => strip (rowGet r "bibtex_url") != "")
    ∧ ∀ r : Row, Conference.rowFetchCalls fetch [] r
        = if strip (rowGet r "bibtex_url") ≠ "" then 1 else 0 := by
  constructor
  · exact sum_map_fetchCalls fetch rows
  · intro r
    exact rowFetchCalls_nocache fetch [] r rfl

/-- Counterexample for C1: the Row Processor does not reuse the cached entry
verbatim as the output record.  With a cached entry whose `bibtex_url`
differs from the incoming record, the output record is the incoming record
with the cached `bibtex_data` spliced in, not the cached entry. -/
theorem c1_counterexample :
    Conference.processRow (fun _ => none)
        [("T", [("title", "T"), ("bibtex_url", "u1"), ("bibtex_data", "@a")])]
        [("title", "T"), ("bibtex_url", "u2")]
      = [("title", "T"), ("bibtex_url", "u2"), ("bibtex_data", "@a")]
    ∧ Conference.processRow (fun _ => none)
        [("T", [("title", "T"), ("bibtex_url", "u1"), ("bibtex_data", "@a")])]
        [("title", "T"), ("bibtex_url", "u2")]
      ≠ [("title", "T"), ("bibtex_url", "u1"), ("bibtex_data", "@a")] :=
  ⟨by decide, by decide⟩

/-- C1 (amended): for an input record whose trimmed title has an entry in the
Existing-Results Map with stripped `bibtex_data` non-blank and not a
sentinel, the Row Processor outputs the input record with `bibtex_data` set
to that cached entry's stripped `bibtex_data`, its result is independent of
the fetch capability, and the fetch capability is not invoked. -/
theorem c1_cached_reuse (fetch fetch2 : String → Option String)
    (m : List (String × Row)) (row c : Row)
    (hl : lookupKey m (strip (rowGet row "title")) = some c)
    (h1 : strip (rowGet c "bibtex_data") ≠ "")
    (h2 : strip (rowGet c "bibtex_data") ≠ "Not Available")
    (h3 : strip (rowGet c "bibtex_data") ≠ "No URL") :
    Conference.processRow fetch m row
      = rowSet row "bibtex_data" (strip (rowGet c "bibtex_data"))
    ∧ Conference.processRow fetch m row = Conference.processRow fetch2 m row
    ∧ Conference.rowFetchCalls fetch m row = 0 := by
  have hre : Conference.reusableBibtex c = true := (reusableBibtex_iff c).mpr ⟨h1, h2, h3⟩
  refine ⟨processRow_cached fetch m row c hl hre, ?_,
    rowFetchCalls_cached fetch m row c hl hre⟩
  rw [processRow_cached fetch m row c hl hre, processRow_cached fetch2 m row c hl hre]

/-- Witness for C1 at a concrete cached entry and input record. -/
theorem c1_cached_reuse_witness :
    Conference.processRow (fun _ => none)
        [("T", [("title", "T"), ("bibtex_url", "u1"), ("bibtex_data", "@a")])]
        [("title", "T"), ("bibtex_url", "u2")]
      = rowSet [("title", "T"), ("bibtex_url", "u2")] "bibtex_data"
          (strip (rowGet [("title", "T"), ("bibtex_url", "u1"), ("bibtex_data", "@a")]
            "bibtex_data"))
    ∧ Conference.processRow (fun _ => none)
        [("T", [("title", "T"), ("bibtex_url", "u1"), ("bibtex_data", "@a")])]
        [("title", "T"), ("bibtex_url", "u2")]
      = Conference.processRow (fun _ => some "@z")
        [("T", [("title", "T"), ("bibtex_url", "u1"), ("bibtex_data", "@a")])]
        [("title", "T"), ("bibtex_url", "u2")]
    ∧ Conference.rowFetchCalls (fun _ => none)
        [("T", [("title", "T"), ("bibtex_url", "u1"), ("bibtex_data", "@a")])]
        [("title", "T"), ("bibtex_url", "u2")] = 0 :=
  c1_cached_reuse (fun _ => none) (fun _ => some "@z")
    [("T", [("title", "T"), ("bibtex_url", "u1"), ("bibtex_data", "@a")])]
    [("title", "T"), ("bibtex_url", "u2")]
    [("title", "T"), ("bibtex_url", "u1"), ("bibtex_data", "@a")]
    (by decide) (by decide) (by decide) (by decide)

/-- Counterexample for C5: a record with blank `bibtex_url` whose trimmed
title has a valid cached entry receives the cached `bibtex_data`, not the
sentinel "No URL". -/
theorem c5_counterexample :
    strip (rowGet [("title", "T"), ("bibtex_url", "")] "bibtex_url") = ""
    ∧ rowGet (Conference.processRow (fun _ => none)
        [("T", [("title", "T"), ("bibtex_data", "@a")])]
        [("title", "T"), ("bibtex_url", "")]) "bibtex_data" = "@a"
    ∧ ("@a" : String) ≠ "No URL" :=
  ⟨by decide, by decide, by decide⟩

/-- C5 (amended): for every input record whose stripped `bibtex_url` is
blank, the fetch capability is never invoked, whatever the Existing-Results
Map contains (first conjunct, with no hypothesis on the map); and when
additionally the trimmed title has no reusable cached entry, the Row
Processor sets `bibtex_data` to "No URL" (second conjunct). -/
theorem c5_blank_url (fetch : String → Option String) (m : List (String × Row))
    (row : Row) (hurl : strip (rowGet row "bibtex_url") = "") :
    Conference.rowFetchCalls fetch m row = 0
    ∧ ((∀ c, lookupKey m (strip (rowGet row "title")) = some c →
          Conference.reusableBibtex c = false) →
        rowGet (Conference.processRow fetch m row) "bibtex_data" = "No URL") := by
  constructor
  · cases hl : lookupKey m (strip (rowGet row "title")) with
    | none => rw [rowFetchCalls_nocache fetch m row hl, if_neg (by simp [hurl])]
    | some c =>
      cases hre : Conference.reusableBibtex c with
      | true => exact rowFetchCalls_cached fetch m row c hl hre
      | false =>
        rw [rowFetchCalls_cached_invalid fetch m row c hl hre,
          if_neg (by simp [hurl])]
  · intro hcache
    have hfs : Conference.processRow fetch m row
        = rowSet row "bibtex_data" "No URL" := by
      cases hl : lookupKey m (strip (rowGet row "title")) with
      | none => rw [processRow_nocache fetch m row hl, fetchStep_blank fetch row _ hurl]
      | some c =>
        rw [processRow_cached_invalid fetch m row c hl (hcache c hl),
          fetchStep_blank fetch row _ hurl]
    rw [hfs, rowGet_rowSet_self]

/-- Witness for C5 at a concrete blank-URL record: zero fetch calls even
with a reusable cached entry under the record's title, and "No URL" with an
empty map. -/
theorem c5_blank_url_witness :
    Conference.rowFetchCalls (fun _ => some "@z")
        [("T", [("title", "T"), ("bibtex_data", "@a")])]
        [("title", "T"), ("bibtex_url", " ")] = 0
    ∧ rowGet (Conference.processRow (fun _ => some "@z") []
        [("title", "T"), ("bibtex_url", " ")]) "bibtex_data" = "No URL" :=
  ⟨(c5_blank_url (fun _ => some "@z")
      [("T", [("title", "T"), ("bibtex_data", "@a")])]
      [("title", "T"), ("bibtex_url", " ")] (by decide)).1,
   (c5_blank_url (fun _ => some "@z") [] [("title", "T"), ("bibtex_url", " ")]
      (by decide)).2 (fun c hc => by simp [lookupKey] at hc)⟩

/-- For a fetch capability whose successful results are already stripped (as
`fetch_bibtex` guarantees via `.strip()`), the fetch-or-"No URL" step never
produces a blank `bibtex_data`: it is a sentinel or non-blank stripped text. -/
theorem fetchStep_never_blank (fetch : String → Option String) (row : Row) (u : String)
    (hfetch : ∀ s, fetch u = some s → strip s = s) :
    rowGet (Conference.fetchStep fetch row u) "bibtex_data" = "Not Available"
    ∨ rowGet (Conference.fetchStep fetch row u) "bibtex_data" = "No URL"
    ∨ (rowGet (Conference.fetchStep fetch row u) "bibtex_data" ≠ ""
      ∧ strip (rowGet (Conference.fetchStep fetch row u) "bibtex_data")
        = rowGet (Conference.fetchStep fetch row u) "bibtex_data") := by
  by_cases hu : u = ""
  · right; left
    rw [fetchStep_blank fetch row u hu, rowGet_rowSet_self]
  · cases hf : fetch u with
    | none =>
      left
      rw [fetchStep_fail fetch row u hu hf, rowGet_rowSet_self]
    | some s =>
      by_cases hs : s = ""
      · left
        rw [fetchStep_empty fetch row u hu (hs ▸ hf), rowGet_rowSet_self]
      · right; right
        rw [fetchStep_some fetch row u s hu hf hs, rowGet_rowSet_self]
        exact ⟨hs, hfetch s hf⟩

/-- C4: for a fetch capability whose successful results are already stripped
(which the concrete `fetch_bibtex` guarantees, line 33), every output record
has `bibtex_data` equal to "Not Available", "No URL", or non-blank stripped
citation text — never a blank string. -/
theorem c4_bibtex_never_blank (fetch : String → Option String)
    (m : List (String × Row)) (row : Row)
    (hfetch : ∀ u s, fetch u = some s → strip s = s) :
    rowGet (Conference.processRow fetch m row) "bibtex_data" = "Not Available"
    ∨ rowGet (Conference.processRow fetch m row) "bibtex_data" = "No URL"
    ∨ (rowGet (Conference.processRow fetch m row) "bibtex_data" ≠ ""
      ∧ strip (rowGet (Conference.processRow fetch m row) "bibtex_data")
        = rowGet (Conference.processRow fetch m row) "bibtex_data") := by
  cases hl : lookupKey m (strip (rowGet row "title")) with
  | none =>
    rw [processRow_nocache fetch m row hl]
    exact fetchStep_never_blank fetch row _ (fun s => hfetch _ s)
  | some c =>
    by_cases hre : Conference.reusableBibtex c = true
    · right; right
      rw [processRow_cached fetch m row c hl hre, rowGet_rowSet_self]
      obtain ⟨hc1, _, _⟩ := (reusableBibtex_iff c).mp hre
      exact ⟨hc1, strip_idem _⟩
    · simp only [Bool.not_eq_true] at hre
      rw [processRow_cached_invalid fetch m row c hl hre]
      exact fetchStep_never_blank fetch row _ (fun s => hfetch _ s)

/-- Witness for C4 at a concrete record, empty map and stripped-output
capability. -/
theorem c4_bibtex_never_blank_witness :
    rowGet (Conference.processRow (fun _ => some "@x") []
        [("title", "T"), ("bibtex_url", "u")]) "bibtex_data" = "Not Available"
    ∨ rowGet (Conference.processRow (fun _ => some "@x") []
        [("title", "T"), ("bibtex_url", "u")]) "bibtex_data" = "No URL"
    ∨ (rowGet (Conference.processRow (fun _ => some "@x") []
        [("title", "T"), ("bibtex_url", "u")]) "bibtex_data" ≠ ""
      ∧ strip (rowGet (Conference.processRow (fun _ => some "@x") []
          [("title", "T"), ("bibtex_url", "u")]) "bibtex_data")
        = rowGet (Conference.processRow (fun _ => some "@x") []
            [("title", "T"), ("bibtex_url", "u")]) "bibtex_data") :=
  c4_bibtex_never_blank (fun _ => some "@x") [] [("title", "T"), ("bibtex_url", "u")]
    (fun _ s h => by
      have h2 : "@x" = s := Option.some.inj h
      rw [← h2]
      decide)

/-- Counterexample for C2: with a deterministic, always-succeeding fetch
capability (stripped, non-blank, non-sentinel results) and two input records
sharing the trimmed title "T" but carrying different URLs, the second run
(loading the first run's output) is not byte-identical to the first: the
later record's cached `bibtex_data` overwrites the earlier record's. -/
theorem c2_counterexample :
    Conference.process_csv c2exFetch none c2exRows
      = [[("title", "T"), ("bibtex_url", "u1"), ("bibtex_data", "@a")],
         [("title", "T"), ("bibtex_url", "u2"), ("bibtex_data", "@b")]]
    ∧ Conference.process_csv c2exFetch
        (some (Conference.process_csv c2exFetch none c2exRows)) c2exRows
      = [[("title", "T"), ("bibtex_url", "u1"), ("bibtex_data", "@b")],
         [("title", "T"), ("bibtex_url", "u2"), ("bibtex_data", "@b")]]
    ∧ Conference.process_csv c2exFetch
        (some (Conference.process_csv c2exFetch none c2exRows)) c2exRows
      ≠ Conference.process_csv c2exFetch none c2exRows :=
  ⟨by decide, by decide, by decide⟩

/-- C2 (amended): for an input dataset whose records have pairwise-distinct,
non-blank trimmed titles, and a deterministic fetch capability that always
succeeds with a stripped, non-blank, non-sentinel result, running
`process_csv` a second time with the first run's output as the prior output
reproduces the first run's output exactly and invokes the fetch capability
zero times. -/
theorem c2_idempotent (fetch : String → Option String) (rows : List Row)
    (htitle : ∀ r ∈ rows, strip (rowGet r "title") ≠ "")
    (hnodup : (rows.map (fun r => strip (rowGet r "title"))).Nodup)
    (hfetch : ∀ u, ∃ s, fetch u = some s ∧ strip s = s ∧ s ≠ ""
        ∧ s ≠ "Not Available" ∧ s ≠ "No URL") :
    Conference.process_csv fetch (some (Conference.process_csv fetch none rows)) rows
      = Conference.process_csv fetch none rows
    ∧ Conference.process_csv_fetchCalls fetch
        (some (Conference.process_csv fetch none rows)) rows = 0 := by
  have hchar : ∀ r : Row,
      (strip (rowGet r "bibtex_url") = ""
        ∧ Conference.processRow fetch [] r = rowSet r "bibtex_data" "No URL")
      ∨ (∃ s, strip (rowGet r "bibtex_url") ≠ ""
          ∧ fetch (strip (rowGet r "bibtex_url")) = some s
          ∧ strip s = s ∧ s ≠ "" ∧ s ≠ "Not Available" ∧ s ≠ "No URL"
          ∧ Conference.processRow fetch [] r = rowSet r "bibtex_data" s) := by
    intro r
    by_cases hu : strip (rowGet r "bibtex_url") = ""
    · exact Or.inl ⟨hu,
        by rw [processRow_nocache fetch [] r rfl, fetchStep_blank fetch r _ hu]⟩
    · obtain ⟨s, hfs, hss, hne, hna, hnu⟩ := hfetch (strip (rowGet r "bibtex_url"))
      exact Or.inr ⟨s, hu, hfs, hss, hne, hna, hnu,
        by rw [processRow_nocache fetch [] r rfl, fetchStep_some fetch r _ s hu hfs hne]⟩
  have hm2 : ∀ r ∈ rows,
      lookupKey (Conference.load_existing_data
          (some (rows.map (Conference.processRow fetch []))) "title")
        (strip (rowGet r "title"))
      = some (Conference.processRow fetch [] r) := by
    intro r hr
    have hk : strip (rowGet r "title") ≠ "" := htitle r hr
    have h1 := load_foldl_lookup "title" (strip (rowGet r "title")) hk
      (rows.map (Conference.processRow fetch [])) []
    have h2 : (rows.map (Conference.processRow fetch [])).filter
          (fun o => strip (rowGet o "title") == strip (rowGet r "title"))
        = (rows.filter
            (fun x => strip (rowGet x "title") == strip (rowGet r "title"))).map
            (Conference.processRow fetch []) :=
      filter_map_pred (Conference.processRow fetch []) _ _
        (fun x => by rw [processRow_title]) rows
    have h3 : rows.filter
          (fun x => strip (rowGet x "title") == strip (rowGet r "title")) = [r] :=
      filter_nodup_single (fun x => strip (rowGet x "title")) rows r hnodup hr
    show lookupKey ((rows.map (Conference.processRow fetch [])).foldl
        (Conference.loadStep "title") []) (strip (rowGet r "title")) = _
    rw [h1, h2, h3]
    simp [lookupKey, Option.or]
  have hrow : ∀ r ∈ rows,
      Conference.processRow fetch
          (Conference.load_existing_data
            (some (rows.map (Conference.processRow fetch []))) "title") r
        = Conference.processRow fetch [] r
      ∧ Conference.rowFetchCalls fetch
          (Conference.load_existing_data
            (some (rows.map (Conference.processRow fetch []))) "title") r = 0 := by
    intro r hr
    have hl := hm2 r hr
    rcases hchar r with ⟨hu, hPr⟩ | ⟨s, hu, hfs, hss, hne, hna, hnu, hPr⟩
    · have hbd : rowGet (Conference.processRow fetch [] r) "bibtex_data" = "No URL" := by
        rw [hPr, rowGet_rowSet_self]
      have hre : Conference.reusableBibtex (Conference.processRow fetch [] r) = false := by
        unfold Conference.reusableBibtex
        rw [hbd]
        decide
      constructor
      · rw [processRow_cached_invalid fetch _ r _ hl hre,
          fetchStep_blank fetch r _ hu, hPr]
      · rw [rowFetchCalls_cached_invalid fetch _ r _ hl hre, if_neg (by simp [hu])]
    · have hbd : rowGet (Conference.processRow fetch [] r) "bibtex_data" = s := by
        rw [hPr, rowGet_rowSet_self]
      have hre : Conference.reusableBibtex (Conference.processRow fetch [] r) = true := by
        apply (reusableBibtex_iff _).mpr
        rw [hbd, hss]
        exact ⟨hne, hna, hnu⟩
      constructor
      · rw [processRow_cached fetch _ r _ hl hre, hbd, hss, hPr]
      · exact rowFetchCalls_cached fetch _ r _ hl hre
  constructor
  · show rows.map (Conference.processRow fetch
        (Conference.load_existing_data
          (some (rows.map (Conference.processRow fetch []))) "title"))
      = rows.map (Conference.processRow fetch [])
    exact map_congr_mem _ _ rows (fun r hr => (hrow r hr).1)
  · show (rows.map (Conference.rowFetchCalls fetch
        (Conference.load_existing_data
          (some (rows.map (Conference.processRow fetch []))) "title"))).sum = 0
    apply sum_zero_of_all_zero
    intro x hx
    obtain ⟨r, hr, hx2⟩ := List.mem_map.mp hx
    rw [← hx2]
    exact (hrow r hr).2

/-- Witness for C2 at a concrete one-record dataset and a constant,
always-succeeding capability. -/
theorem c2_idempotent_witness :
    Conference.process_csv (fun _ => some "@x")
        (some (Conference.process_csv (fun _ => some "@x") none
          [[("title", "A"), ("bibtex_url", "u")]]))
        [[("title", "A"), ("bibtex_url", "u")]]
      = Conference.process_csv (fun _ => some "@x") none
          [[("title", "A"), ("bibtex_url", "u")]]
    ∧ Conference.process_csv_fetchCalls (fun _ => some "@x")
        (some (Conference.process_csv (fun _ => some "@x") none
          [[("title", "A"), ("bibtex_url", "u")]]))
        [[("title", "A"), ("bibtex_url", "u")]] = 0 :=
  c2_idempotent (fun _ => some "@x") [[("title", "A"), ("bibtex_url", "u")]]
    (by decide) (by decide)
    (fun _ => ⟨"@x", rfl, by decide, by decide, by decide, by decide⟩)
